import Mathlib

/-!
Shallow embedding of the COVID-19 dataset cleanup pipeline (`src/cleanup.py`)
over an explicit table model, together with theorems settling the frozen
claims about the natural-language specification.

Modelling conventions:
* a `Table` is a list of named columns; a cell is `Option Value`, where
  `none` models a pandas `NaN` (a `Missing` cell) and `Value` is either a
  rational number (modelling pandas numeric values) or a text atom;
* `pd.to_numeric(..., errors="ignore")` is modelled column-wise: the column
  converts exactly when every cell is missing or parses as a number,
  otherwise it is returned unchanged;
* float arithmetic is modelled over `ℚ`; `.round(2)` is round-half-even to
  two decimals (`round2`), matching IEEE/NumPy tie behaviour on exact values;
* Python exceptions (e.g. the `TypeError` raised when a row value used by
  `df.apply` is a string) are modelled with `Except String`.
-/

namespace Covid

/-- A concrete cell value: a number (pandas numeric dtype) or a text atom. -/
inductive Value where
  | num (q : ℚ)
  | text (s : String)
deriving DecidableEq, Repr

/-- A column: its name plus its cells; `none` is a Missing cell (pandas NaN). -/
structure Col where
  name : String
  cells : List (Option Value)
deriving DecidableEq, Repr

/-- A table is an ordered list of named columns. -/
abbrev Table := List Col

/-- The fixed allow-list `IMPORTANT_COLUMNS` of `src/cleanup.py`. -/
def IMPORTANT_COLUMNS : List String :=
  ["Name",
   "WHO_Region",
   "Cases_cumulative_total",
   "Cases_newly_reported_in_last_7_days",
   "Cases_newly_reported_in_last_24_hours",
   "Deaths_cumulative_total",
   "Deaths_newly_reported_in_last_7_days",
   "Deaths_newly_reported_in_last_24_hours"]

/-- Python `str.strip()`: drop leading and trailing whitespace characters. -/
def stripChars (l : List Char) : List Char :=
  ((l.dropWhile Char.isWhitespace).reverse.dropWhile Char.isWhitespace).reverse

/-- Python `str.replace("__", "_")`: one left-to-right pass replacing each
non-overlapping occurrence of two underscores by one underscore. -/
def collapseDU : List Char → List Char
  | [] => []
  | [c] => [c]
  | c1 :: c2 :: rest =>
      if c1 = '_' ∧ c2 = '_' then '_' :: collapseDU rest
      else c1 :: collapseDU (c2 :: rest)

/-- The column-name transformation of `clean_column_names` (`src/cleanup.py`
lines 29-41): `strip()`, then `replace(" ", "_")`, then removal of each of
`-`, `/`, `(`, `)` (single-character `replace(c, "")` calls, i.e. filters,
in source order), then `replace("__", "_")`. -/
def clean_name (s : String) : String :=
  String.mk (collapseDU
    ((((((stripChars s.data).map (fun c => if c == ' ' then '_' else c)).filter
      (fun c => c != '-')).filter (fun c => c != '/')).filter
      (fun c => c != '(')).filter (fun c => c != ')')))

/-- Model of `clean_column_names`: rename every column, leaving cells untouched. -/
def clean_column_names (t : Table) : Table :=
  t.map (fun c => { c with name := clean_name c.name })

/-- Numeric value of a digit string (digits already validated). -/
def natOfDigits (l : List Char) : ℕ :=
  l.foldl (fun a c => a * 10 + (c.toNat - 48)) 0

/-- Split an optional leading sign off a character list. -/
def splitSign : List Char → Bool × List Char
  | '-' :: rest => (true, rest)
  | '+' :: rest => (false, rest)
  | l => (false, l)

/-- Modelled from the numeric parser used by `pd.to_numeric`: an optional
sign followed by an integer or decimal literal; anything else fails. -/
def parseNum (s : String) : Option ℚ :=
  let p := splitSign s.data
  let ip := p.2.takeWhile Char.isDigit
  let rest := p.2.dropWhile Char.isDigit
  let core : Option ℚ :=
    match rest with
    | [] => if ip.isEmpty then none else some ((natOfDigits ip : ℚ))
    | '.' :: fp =>
        if fp.all Char.isDigit && (!ip.isEmpty || !fp.isEmpty) then
          some ((natOfDigits ip : ℚ) + (natOfDigits fp : ℚ) / (10 : ℚ) ^ fp.length)
        else none
    | _ => none
  core.map (fun q => if p.1 then -q else q)

/-- One cell under numeric coercion: Missing stays Missing, numbers stay,
text must parse; `none` result means the coercion of the column fails. -/
def cellToNum : Option Value → Option (Option ℚ)
  | none => some none
  | some (Value.num q) => some (some q)
  | some (Value.text s) => (parseNum s).map some

/-- Traverse a list with an `Option`-valued function (all-or-nothing). -/
def optionMap {α β : Type} (f : α → Option β) : List α → Option (List β)
  | [] => some []
  | x :: xs =>
    match f x, optionMap f xs with
    | some y, some ys => some (y :: ys)
    | _, _ => none

/-- Column-level `pd.to_numeric(col, errors="ignore")`: the column becomes
numeric exactly when every non-missing cell parses; otherwise it is
returned unchanged. -/
def coerceColumn (c : Col) : Col :=
  match optionMap cellToNum c.cells with
  | some qs => { c with cells := qs.map (fun o => o.map Value.num) }
  | none => c

/-- Model of `simplify_numeric_columns` (`src/cleanup.py` lines 44-52). -/
def simplify_numeric_columns (t : Table) : Table :=
  t.map coerceColumn

/-- Model of `pd.api.types.is_numeric_dtype`: a column is numeric when every cell is
missing or a number (an all-missing column is a float64 NaN column). -/
def isNumericCol (c : Col) : Bool :=
  c.cells.all (fun x =>
    match x with
    | none => true
    | some (Value.num _) => true
    | some (Value.text _) => false)

/-- Model of `df[col].isnull().sum()` for one column. -/
def count_missing_col (c : Col) : ℕ :=
  (c.cells.filter Option.isNone).length

/-- Model of `df.isnull().sum().sum()`: total Missing cells of a table. -/
def count_missing (t : Table) : ℕ :=
  (t.map count_missing_col).sum

/-- The fill value `handle_missing_values` picks for a column. -/
def fillValue (c : Col) : Value :=
  if isNumericCol c then Value.num 0 else Value.text "Unknown"

/-- Model of `df.fillna` on one column with its type-keyed fill value. -/
def fillCol (c : Col) : Col :=
  { c with cells := c.cells.map (fun x => some (x.getD (fillValue c))) }

/-- Model of `handle_missing_values` (`src/cleanup.py` lines 55-71): if there are no
missing cells the frame is returned untouched, otherwise `fillna` runs with
`0` for numeric-dtype columns and `"Unknown"` for the rest. -/
def handle_missing_values (t : Table) : Table :=
  if count_missing t = 0 then t else t.map fillCol

/-- Round-half-even to an integer, the tie rule of IEEE/NumPy rounding. -/
def roundHalfEven (q : ℚ) : ℤ :=
  if q - Rat.floor q < 1 / 2 then Rat.floor q
  else if 1 / 2 < q - Rat.floor q then Rat.floor q + 1
  else if Rat.floor q % 2 = 0 then Rat.floor q else Rat.floor q + 1

/-- Model of `Series.round(2)` on one value. -/
def round2 (q : ℚ) : ℚ :=
  (roundHalfEven (q * 100) : ℚ) / 100

/-- Model of the `df[name]` lookup (first column with the given label). -/
def getCol (t : Table) (n : String) : Option Col :=
  t.find? (fun c => c.name == n)

/-- Model of the membership test `name in df.columns`. -/
def hasCol (t : Table) (n : String) : Bool :=
  (getCol t n).isSome

/-- Traverse a list with an `Except`-valued function, first error wins. -/
def exceptMap {α β : Type} (f : α → Except String β) : List α → Except String (List β)
  | [] => Except.ok []
  | x :: xs =>
    match f x, exceptMap f xs with
    | Except.ok y, Except.ok ys => Except.ok (y :: ys)
    | Except.error e, _ => Except.error e
    | _, Except.error e => Except.error e

/-- One row of the `df.apply(lambda x: num/den*100 if den > 0 else 0)` step.
The guard `x[den] > 0` is evaluated first: a text denominator raises a
`TypeError`, while a missing denominator (`NaN > 0` is `False`) yields the
`0` fallback; in the positive branch a text numerator raises and a missing
numerator propagates `NaN`. -/
def rawMetricCell : Option Value → Option Value → Except String (Option Value)
  | numCell, some (Value.num d) =>
      if 0 < d then
        match numCell with
        | some (Value.num n) => Except.ok (some (Value.num (n / d * 100)))
        | some (Value.text _) => Except.error "TypeError"
        | none => Except.ok none
      else Except.ok (some (Value.num 0))
  | _, some (Value.text _) => Except.error "TypeError"
  | _, none => Except.ok (some (Value.num 0))

/-- Model of `Series.round(2)` cell-wise; `NaN.round()` is `NaN`. -/
def roundCell : Option Value → Option Value
  | some (Value.num q) => some (Value.num (round2 q))
  | x => x

/-- Model of `df[new] = series`: overwrite the column if the label exists, else
append it at the right end. -/
def setCol : Table → String → List (Option Value) → Table
  | [], n, cells => [⟨n, cells⟩]
  | c :: t, n, cells =>
      if c.name == n then ⟨c.name, cells⟩ :: t else c :: setCol t n cells

/-- One guarded metric block of `add_derived_metrics`: when both input
labels are present, compute the per-row ratio column and round it. -/
def addMetric (t : Table) (newName numName denName : String) : Except String Table :=
  match getCol t numName, getCol t denName with
  | some cn, some cd =>
      match exceptMap (fun p => rawMetricCell p.1 p.2) (cn.cells.zip cd.cells) with
      | Except.ok cells => Except.ok (setCol t newName (cells.map roundCell))
      | Except.error e => Except.error e
  | _, _ => Except.ok t

/-- Model of `add_derived_metrics` (`src/cleanup.py` lines 74-95): the two guarded
metric computations in source order. -/
def add_derived_metrics (t : Table) : Except String Table :=
  match addMetric t "Case_Fatality_Rate" "Deaths_cumulative_total" "Cases_cumulative_total" with
  | Except.ok t1 =>
      addMetric t1 "Weekly_Case_Growth_%" "Cases_newly_reported_in_last_7_days" "Cases_cumulative_total"
  | Except.error e => Except.error e

/-- Model of `confirm_and_keep_columns` (`src/cleanup.py` lines 98-113), with the
interactive `y/n` answer abstracted into the `restrict` boolean: on `true`
keep `df[[col for col in IMPORTANT_COLUMNS if col in df.columns]]`. -/
def confirm_and_keep_columns (restrict : Bool) (t : Table) : Table :=
  if restrict then IMPORTANT_COLUMNS.filterMap (fun n => getCol t n) else t

/-- Model of `len(df)`: the row count of the frame (length of its columns). -/
def numRows (t : Table) : ℕ :=
  match t with
  | [] => 0
  | c :: _ => c.cells.length

/-- The `missing_pct` computed by `generate_markdown_summary`
(`src/cleanup.py` line 137): `(df[col].isnull().sum() / len(df)) * 100`,
taken on the table the reporter receives. -/
def missing_percent (t : Table) (c : Col) : ℚ :=
  ((count_missing_col c : ℚ) / (numRows t : ℚ)) * 100

/-- The `(column name, missing percent)` fields of the summary rows that
`generate_markdown_summary` emits for its input table. -/
def summaryMissingPercents (t : Table) : List (String × ℚ) :=
  t.map (fun c => (c.name, missing_percent t c))

/-- The cleaning pipeline of `process_dataset` (`src/cleanup.py` lines
176-189): name cleanup, numeric coercion, missing-value handling, derived
metrics, optional projection. The summary is then generated from the
returned (post-pipeline) table. -/
def process_dataset (restrict : Bool) (t : Table) : Except String Table :=
  match add_derived_metrics (handle_missing_values (simplify_numeric_columns (clean_column_names t))) with
  | Except.ok t4 => Except.ok (confirm_and_keep_columns restrict t4)
  | Except.error e => Except.error e

/-- Modelled from the spec, §3 Canonical Column Name: trim surrounding
whitespace, replace each space with an underscore, remove every occurrence
of the characters `-`, `/`, `(`, `)`, then collapse each double underscore
to a single underscore. -/
def specCanonical (s : String) : String :=
  String.mk (collapseDU (((stripChars s.data).map
    (fun c => if c == ' ' then '_' else c)).filter
    (fun c => !(c == '-' || c == '/' || c == '(' || c == ')'))))

/-- Cells of a numeric column holding the given values. -/
def numCells (l : List ℚ) : List (Option Value) :=
  l.map (fun q => some (Value.num q))

/-- The per-row derived-metric values the source produces for a numeric
numerator/denominator pair of columns. -/
def rateCells (ns ds : List ℚ) : List (Option Value) :=
  (ns.zip ds).map (fun p =>
    some (Value.num (if 0 < p.2 then round2 (p.1 / p.2 * 100) else 0)))

/-- A three-column table holding the inputs of both derived metrics. -/
def tbl3 (ds ws cs : List ℚ) : Table :=
  [⟨"Deaths_cumulative_total", numCells ds⟩,
   ⟨"Cases_newly_reported_in_last_7_days", numCells ws⟩,
   ⟨"Cases_cumulative_total", numCells cs⟩]

/-- Every cell of every column is non-missing. -/
def allFilled (t : Table) : Bool :=
  t.all (fun c => c.cells.all Option.isSome)

/-- Decides that a character list has no two adjacent underscores. -/
def noDU : List Char → Bool
  | [] => true
  | [_] => true
  | c1 :: c2 :: rest => decide (c1 = '_' ∧ c2 = '_') = false && noDU (c2 :: rest)

/-- Equality of error-or-value results is decidable cell by cell. -/
instance {ε α : Type} [DecidableEq ε] [DecidableEq α] : DecidableEq (Except ε α) := fun x y =>
  match x, y with
  | Except.ok a, Except.ok b =>
      if h : a = b then Decidable.isTrue (by rw [h])
      else Decidable.isFalse (fun he => h (Except.ok.inj he))
  | Except.error a, Except.error b =>
      if h : a = b then Decidable.isTrue (by rw [h])
      else Decidable.isFalse (fun he => h (Except.error.inj he))
  | Except.ok _, Except.error _ => Decidable.isFalse (fun he => Except.noConfusion he)
  | Except.error _, Except.ok _ => Decidable.isFalse (fun he => Except.noConfusion he)

/-! ## Helper lemmas on the name normalizer -/

theorem collapseDU_sublist (l : List Char) : (collapseDU l).Sublist l := by
  induction l using collapseDU.induct with
  | case1 => exact List.Sublist.refl []
  | case2 c => exact List.Sublist.refl [c]
  | case3 c1 c2 rest h ih =>
      rw [collapseDU, if_pos h]
      obtain ⟨h1, h2⟩ := h
      subst h1; subst h2
      exact (ih.cons '_').cons₂ '_'
  | case4 c1 c2 rest h ih =>
      rw [collapseDU, if_neg h]
      exact ih.cons₂ c1

theorem collapseDU_eq_self (l : List Char) (h : noDU l = true) : collapseDU l = l := by
  induction l using collapseDU.induct with
  | case1 => rfl
  | case2 c => rfl
  | case3 c1 c2 rest hc ih =>
      rw [noDU] at h
      simp [hc] at h
  | case4 c1 c2 rest hc ih =>
      rw [noDU] at h
      rw [collapseDU, if_neg hc]
      simp only [Bool.and_eq_true] at h
      rw [ih h.2]

theorem clean_name_eq_specCanonical (s : String) : clean_name s = specCanonical s := by
  unfold clean_name specCanonical
  rw [List.filter_filter, List.filter_filter, List.filter_filter]
  congr 2
  apply List.filter_congr
  intro c _
  cases h1 : c == '-' <;> cases h2 : c == '/' <;> cases h3 : c == '(' <;>
    cases h4 : c == ')' <;> simp [bne, h1, h2, h3, h4]

theorem mem_clean_name (s : String) (c : Char) (hc : c ∈ (clean_name s).data) :
    c ≠ ' ' ∧ c ≠ '-' ∧ c ≠ '/' ∧ c ≠ '(' ∧ c ≠ ')' := by
  unfold clean_name at hc
  have hc2 := (collapseDU_sublist _).subset hc
  simp only [List.mem_filter, List.mem_map, bne_iff_ne, ne_eq] at hc2
  obtain ⟨⟨⟨⟨⟨a, _, ha⟩, h1⟩, h2⟩, h3⟩, h4⟩ := hc2
  refine ⟨?_, h1, h2, h3, h4⟩
  intro hsp
  subst hsp
  by_cases ha2 : a == ' '
  · rw [if_pos ha2] at ha
    exact absurd ha (by decide)
  · rw [if_neg ha2] at ha
    subst ha
    simp at ha2

theorem clean_name_fixpoint (y : String)
    (hsp : ∀ c ∈ y.data, c ≠ ' ' ∧ c ≠ '-' ∧ c ≠ '/' ∧ c ≠ '(' ∧ c ≠ ')')
    (h1 : noDU y.data = true) (h2 : stripChars y.data = y.data) :
    clean_name y = y := by
  unfold clean_name
  rw [h2]
  have hm : y.data.map (fun c => if c == ' ' then '_' else c) = y.data := by
    rw [List.map_congr_left (g := id) ?_, List.map_id]
    intro c hc
    have := (hsp c hc).1
    simp [this]
  rw [hm]
  have f1 : List.filter (fun c => c != '-') y.data = y.data :=
    List.filter_eq_self.mpr (fun c hc => by simp [bne, (hsp c hc).2.1])
  have f2 : List.filter (fun c => c != '/') y.data = y.data :=
    List.filter_eq_self.mpr (fun c hc => by simp [bne, (hsp c hc).2.2.1])
  have f3 : List.filter (fun c => c != '(') y.data = y.data :=
    List.filter_eq_self.mpr (fun c hc => by simp [bne, (hsp c hc).2.2.2.1])
  have f4 : List.filter (fun c => c != ')') y.data = y.data :=
    List.filter_eq_self.mpr (fun c hc => by simp [bne, (hsp c hc).2.2.2.2])
  rw [f1, f2, f3, f4, collapseDU_eq_self _ h1]

/-- C5: for every raw column name the Schema Normalizer produces the
spec-described Canonical Column Name (trim surrounding whitespace, replace
each space with an underscore, remove every occurrence of the characters
hyphen, slash and the two parentheses, collapse each resulting double
underscore to a single underscore), leaving all row data unchanged. -/
theorem C5_normalizer_canonical (t : Table) :
    clean_column_names t = t.map (fun c => ⟨specCanonical c.name, c.cells⟩) := by
  unfold clean_column_names
  apply List.map_congr_left
  intro c _
  cases c with
  | mk name cells => simp [clean_name_eq_specCanonical]

/-- C4 counterexample: the Schema Normalizer is not idempotent; on the raw
name built of the letter a, three spaces and the letter b, one application
yields a name with a double underscore and a second application collapses
it further. -/
theorem C4_counterexample : clean_name (clean_name "a   b") ≠ clean_name "a   b" := by
  decide

/-- C4 amended: the normalization is idempotent on every raw name whose
once-normalized form has no two adjacent underscores and is already free
of leading and trailing whitespace; in general a second application can
differ (see the counterexample). -/
theorem C4_amended_idempotent (s : String)
    (h1 : noDU (clean_name s).data = true)
    (h2 : stripChars (clean_name s).data = (clean_name s).data) :
    clean_name (clean_name s) = clean_name s :=
  clean_name_fixpoint (clean_name s) (mem_clean_name s) h1 h2

/-- Witness for the amended C4 at a concrete raw name. -/
theorem C4_amended_witness :
    noDU (clean_name "Ab c").data = true ∧
    stripChars (clean_name "Ab c").data = (clean_name "Ab c").data ∧
    clean_name (clean_name "Ab c") = clean_name "Ab c" :=
  ⟨by decide, by decide, C4_amended_idempotent "Ab c" (by decide) (by decide)⟩

/-! ## Helper lemmas on coercion and missing-value handling -/

theorem count_missing_col_eq_zero (c : Col) :
    count_missing_col c = 0 ↔ ∀ x ∈ c.cells, x.isSome = true := by
  unfold count_missing_col
  rw [List.length_eq_zero, List.filter_eq_nil_iff]
  constructor
  · intro h x hx
    cases x with
    | none => exact absurd rfl (h none hx)
    | some v => rfl
  · intro h x hx
    cases x with
    | none => have := h none hx; simp at this
    | some v => simp

theorem fillCol_eq_self (c : Col) (h : ∀ x ∈ c.cells, x.isSome = true) :
    fillCol c = c := by
  unfold fillCol
  have hm : c.cells.map (fun x => some (x.getD (fillValue c))) = c.cells := by
    rw [List.map_congr_left (g := id) ?_, List.map_id]
    intro x hx
    cases x with
    | none => have := h none hx; simp at this
    | some v => rfl
  rw [hm]

theorem count_missing_col_fillCol (c : Col) : count_missing_col (fillCol c) = 0 := by
  simp [count_missing_col, fillCol, List.filter_map, Function.comp]

theorem count_missing_eq_zero (t : Table) :
    count_missing t = 0 ↔ ∀ c ∈ t, count_missing_col c = 0 := by
  unfold count_missing
  rw [List.sum_eq_zero_iff]
  constructor
  · intro h c hc
    exact h _ (List.mem_map_of_mem count_missing_col hc)
  · intro h x hx
    obtain ⟨c, hc, rfl⟩ := List.mem_map.mp hx
    exact h c hc

theorem cellToNum_isSome (x : Option Value) (y : Option ℚ) (h : cellToNum x = some y) :
    y.isSome = x.isSome := by
  cases x with
  | none =>
      simp [cellToNum] at h
      subst h; rfl
  | some v =>
      cases v with
      | num q =>
          simp [cellToNum] at h
          subst h; rfl
      | text s =>
          simp [cellToNum] at h
          obtain ⟨q, _, rfl⟩ := h
          rfl

theorem optionMap_eq_none {α β : Type} (f : α → Option β) (l : List α) (x : α)
    (hx : x ∈ l) (hfx : f x = none) : optionMap f l = none := by
  induction l with
  | nil => cases hx
  | cons y ys ih =>
      rcases List.mem_cons.mp hx with rfl | hmem
      · simp [optionMap, hfx]
      · cases hy : f y <;> simp [optionMap, hy, ih hmem]

theorem optionMap_isSome_shape (l : List (Option Value)) (qs : List (Option ℚ))
    (h : optionMap cellToNum l = some qs) :
    qs.map Option.isSome = l.map Option.isSome := by
  induction l generalizing qs with
  | nil =>
      simp [optionMap] at h
      subst h; rfl
  | cons x xs ih =>
      cases hx : cellToNum x with
      | none => simp [optionMap, hx] at h
      | some y =>
          cases hxs : optionMap cellToNum xs with
          | none => simp [optionMap, hx, hxs] at h
          | some ys =>
              simp [optionMap, hx, hxs] at h
              subst h
              simp [cellToNum_isSome x y hx, ih ys hxs]

theorem optionMap_all_none (l : List (Option Value)) (h : ∀ x ∈ l, x = none) :
    optionMap cellToNum l = some (l.map (fun _ => none)) := by
  induction l with
  | nil => rfl
  | cons x xs ih =>
      have hx : x = none := h x (List.mem_cons_self x xs)
      subst hx
      simp [optionMap, cellToNum, ih (fun y hy => h y (List.mem_cons_of_mem _ hy))]

/-! ## Claims C6, C7, C10 -/

/-- C6: the Missing-Value Resolver replaces every Missing cell of a
numeric-kind column by the number 0 and every Missing cell of a text-kind
column by the string Unknown, alters no non-Missing cell, leaves zero
Missing cells in its output, and returns a table with no Missing cells
unchanged. -/
theorem C6_resolver_fill_policy (t t0 : Table) (h0 : count_missing t0 = 0) :
    count_missing (handle_missing_values t) = 0 ∧
    handle_missing_values t =
      t.map (fun c => ⟨c.name, c.cells.map (fun x =>
        some (x.getD (if isNumericCol c then Value.num 0 else Value.text "Unknown")))⟩) ∧
    handle_missing_values t0 = t0 := by
  refine ⟨?_, ?_, ?_⟩
  · unfold handle_missing_values
    split
    · assumption
    · rw [count_missing_eq_zero]
      intro c hc
      obtain ⟨d, _, rfl⟩ := List.mem_map.mp hc
      exact count_missing_col_fillCol d
  · unfold handle_missing_values
    split
    · next h =>
        rw [List.map_congr_left (g := id) ?_, List.map_id]
        intro c hc
        have hall := (count_missing_col_eq_zero c).mp ((count_missing_eq_zero t).mp h c hc)
        show fillCol c = id c
        exact fillCol_eq_self c hall
    · rfl
  · rw [handle_missing_values, if_pos h0]

/-- C7: the Type Coercer decides numeric coercion per whole column; a
column containing a non-parsing text value remains entirely unchanged, the
Missing layout of every column is preserved, and the three-valued scenario
column stays text. -/
theorem C7_coercer_all_or_nothing (t : Table) (c c2 : Col) (bad : String)
    (hbad : some (Value.text bad) ∈ c.cells) (hparse : parseNum bad = none) :
    simplify_numeric_columns t = t.map coerceColumn ∧
    coerceColumn c = c ∧
    (coerceColumn c2).cells.map Option.isSome = c2.cells.map Option.isSome ∧
    coerceColumn ⟨"v", [some (Value.text "3"), some (Value.text "4"), some (Value.text "abc")]⟩ =
      ⟨"v", [some (Value.text "3"), some (Value.text "4"), some (Value.text "abc")]⟩ := by
  refine ⟨rfl, ?_, ?_, by decide⟩
  · have hnone : cellToNum (some (Value.text bad)) = none := by
      simp [cellToNum, hparse]
    rw [coerceColumn, optionMap_eq_none cellToNum c.cells _ hbad hnone]
  · cases hq : optionMap cellToNum c2.cells with
    | none => rw [coerceColumn, hq]
    | some qs =>
        rw [coerceColumn, hq]
        have := optionMap_isSome_shape c2.cells qs hq
        simp only [List.map_map]
        rw [← this]
        apply List.map_congr_left
        intro o _
        simp [Function.comp]

/-- Witness for C7 at a concrete table with a partially numeric column. -/
theorem C7_witness :
    some (Value.text "abc") ∈
      (Col.mk "mixed" [some (Value.text "3"), some (Value.text "abc")]).cells ∧
    parseNum "abc" = none ∧
    (simplify_numeric_columns
        [⟨"mixed", [some (Value.text "3"), some (Value.text "abc")]⟩,
         ⟨"w", [none, some (Value.text "5")]⟩] =
      [⟨"mixed", [some (Value.text "3"), some (Value.text "abc")]⟩,
       ⟨"w", [none, some (Value.text "5")]⟩].map coerceColumn ∧
     coerceColumn ⟨"mixed", [some (Value.text "3"), some (Value.text "abc")]⟩ =
       ⟨"mixed", [some (Value.text "3"), some (Value.text "abc")]⟩ ∧
     (coerceColumn ⟨"w", [none, some (Value.text "5")]⟩).cells.map Option.isSome =
       (Col.mk "w" [none, some (Value.text "5")]).cells.map Option.isSome ∧
     coerceColumn ⟨"v", [some (Value.text "3"), some (Value.text "4"), some (Value.text "abc")]⟩ =
       ⟨"v", [some (Value.text "3"), some (Value.text "4"), some (Value.text "abc")]⟩) :=
  ⟨by decide, by decide,
    C7_coercer_all_or_nothing
      [⟨"mixed", [some (Value.text "3"), some (Value.text "abc")]⟩,
       ⟨"w", [none, some (Value.text "5")]⟩]
      ⟨"mixed", [some (Value.text "3"), some (Value.text "abc")]⟩
      ⟨"w", [none, some (Value.text "5")]⟩ "abc" (by decide) (by decide)⟩

/-- C10: a column whose cells are all Missing resolves as numeric (the
pandas all-NaN column is a float column), is unchanged by the Type
Coercer, and the Missing-Value Resolver fills every one of its cells with
the number 0, never with the string Unknown. -/
theorem C10_all_missing_numeric (c : Col) (h : ∀ x ∈ c.cells, x = none)
    (hne : c.cells ≠ []) :
    isNumericCol c = true ∧
    coerceColumn c = c ∧
    fillCol c = ⟨c.name, c.cells.map (fun _ => some (Value.num 0))⟩ ∧
    handle_missing_values [c] = [⟨c.name, c.cells.map (fun _ => some (Value.num 0))⟩] := by
  have hnum : isNumericCol c = true := by
    rw [isNumericCol, List.all_eq_true]
    intro x hx
    rw [h x hx]
  have hfill : fillCol c = ⟨c.name, c.cells.map (fun _ => some (Value.num 0))⟩ := by
    rw [fillCol]
    have hv : fillValue c = Value.num 0 := by rw [fillValue, if_pos hnum]
    congr 1
    apply List.map_congr_left
    intro x hx
    rw [h x hx, hv]
    rfl
  refine ⟨hnum, ?_, hfill, ?_⟩
  · have hmap : (c.cells.map (fun _ => (none : Option ℚ))).map (fun o => o.map Value.num) =
        c.cells := by
      rw [List.map_map, List.map_congr_left (g := id) ?_, List.map_id]
      intro x hx
      rw [h x hx]
      rfl
    rw [coerceColumn, optionMap_all_none c.cells h]
    show Col.mk c.name ((c.cells.map (fun _ => (none : Option ℚ))).map
      (fun o => o.map Value.num)) = c
    rw [hmap]
  · have hcnt : count_missing [c] ≠ 0 := by
      have : count_missing_col c = c.cells.length := by
        rw [count_missing_col, List.filter_eq_self.mpr ?_]
        intro x hx
        rw [h x hx]
        rfl
      simp [count_missing, this]
      exact hne
    rw [handle_missing_values, if_neg hcnt]
    simp [hfill]

/-- Witness for C10 at a concrete two-cell all-missing column. -/
theorem C10_witness :
    (∀ x ∈ (Col.mk "A" [none, none]).cells, x = none) ∧
    (Col.mk "A" [none, none]).cells ≠ [] ∧
    (isNumericCol ⟨"A", [none, none]⟩ = true ∧
     coerceColumn ⟨"A", [none, none]⟩ = ⟨"A", [none, none]⟩ ∧
     fillCol ⟨"A", [none, none]⟩ =
       ⟨"A", ((Col.mk "A" [none, none]).cells.map (fun _ => some (Value.num 0)))⟩ ∧
     handle_missing_values [⟨"A", [none, none]⟩] =
       [⟨"A", ((Col.mk "A" [none, none]).cells.map (fun _ => some (Value.num 0)))⟩]) :=
  ⟨by decide, by decide, C10_all_missing_numeric ⟨"A", [none, none]⟩ (by decide) (by decide)⟩

/-! ## Helper lemmas on the Derived-Metric Engine -/

theorem getCol_nil (n : String) : getCol [] n = none := rfl

theorem getCol_cons_hit (c : Col) (t : Table) (n : String) (h : (c.name == n) = true) :
    getCol (c :: t) n = some c :=
  List.find?_cons_of_pos t h

theorem getCol_cons_miss (c : Col) (t : Table) (n : String) (h : (c.name == n) = false) :
    getCol (c :: t) n = getCol t n :=
  List.find?_cons_of_neg t (by simp [h])

theorem getCol_eq_some (t : Table) (n : String) (c : Col) (h : getCol t n = some c) :
    c.name = n ∧ c ∈ t :=
  ⟨by simpa using List.find?_some h, List.mem_of_find?_eq_some h⟩

theorem hasCol_nil (n : String) : hasCol [] n = false := rfl

theorem hasCol_cons (c : Col) (t : Table) (n : String) :
    hasCol (c :: t) n = ((c.name == n) || hasCol t n) := by
  unfold hasCol
  cases hb : c.name == n
  · rw [getCol_cons_miss _ _ _ hb]
    simp
  · rw [getCol_cons_hit _ _ _ hb]
    simp

theorem setCol_append (t : Table) (n : String) (cells : List (Option Value))
    (h : hasCol t n = false) : setCol t n cells = t ++ [⟨n, cells⟩] := by
  induction t with
  | nil => rfl
  | cons c t ih =>
      rw [hasCol_cons] at h
      simp only [Bool.or_eq_false_iff] at h
      rw [setCol, if_neg (by simp [h.1]), ih h.2, List.cons_append]

theorem rawMetricCell_num (a b : ℚ) :
    rawMetricCell (some (Value.num a)) (some (Value.num b)) =
      Except.ok (if 0 < b then some (Value.num (a / b * 100)) else some (Value.num 0)) := by
  by_cases hb : 0 < b <;> simp [rawMetricCell, hb]

theorem exceptMap_ok_of {α β : Type} (f : α → Except String β) (g : α → β) (l : List α)
    (h : ∀ x ∈ l, f x = Except.ok (g x)) : exceptMap f l = Except.ok (l.map g) := by
  induction l with
  | nil => rfl
  | cons x xs ih =>
      simp [exceptMap, h x (List.mem_cons_self x xs),
        ih (fun y hy => h y (List.mem_cons_of_mem _ hy))]

theorem exceptMap_map {α β γ : Type} (f : β → Except String γ) (m : α → β) (l : List α) :
    exceptMap f (l.map m) = exceptMap (fun x => f (m x)) l := by
  induction l with
  | nil => rfl
  | cons x xs ih => simp [exceptMap, ih]

theorem exceptMap_numCells (ns ds2 : List ℚ) :
    exceptMap (fun p => rawMetricCell p.1 p.2) ((numCells ns).zip (numCells ds2)) =
      Except.ok ((ns.zip ds2).map (fun p =>
        if 0 < p.2 then some (Value.num (p.1 / p.2 * 100)) else some (Value.num 0))) := by
  unfold numCells
  rw [List.zip_map, exceptMap_map]
  exact exceptMap_ok_of _ _ _ (fun p _ => rawMetricCell_num p.1 p.2)

theorem roundHalfEven_intCast (z : ℤ) : roundHalfEven ((z : ℚ)) = z := by
  have hf : Rat.floor ((z : ℚ)) = z := by
    rw [Rat.floor_def']
    simp
  unfold roundHalfEven
  rw [hf, sub_self]
  norm_num

theorem round2_intCast (z : ℤ) : round2 ((z : ℚ)) = z := by
  unfold round2
  have h1 : ((z : ℚ)) * 100 = (((z * 100 : ℤ)) : ℚ) := by push_cast; ring
  rw [h1, roundHalfEven_intCast]
  push_cast
  rw [mul_div_assoc]
  norm_num

theorem round2_zero : round2 0 = 0 := by
  have := round2_intCast 0
  simpa using this

theorem preRate_round (ns ds2 : List ℚ) :
    ((ns.zip ds2).map (fun p => if 0 < p.2 then some (Value.num (p.1 / p.2 * 100))
        else some (Value.num 0))).map roundCell = rateCells ns ds2 := by
  rw [List.map_map]
  unfold rateCells
  apply List.map_congr_left
  intro p _
  by_cases hp : 0 < p.2
  · simp [Function.comp, hp, roundCell]
  · simp [Function.comp, hp, roundCell, round2_zero]

theorem add_derived_two_col (ds cs : List ℚ) :
    add_derived_metrics
        [⟨"Deaths_cumulative_total", numCells ds⟩, ⟨"Cases_cumulative_total", numCells cs⟩] =
      Except.ok
        [⟨"Deaths_cumulative_total", numCells ds⟩, ⟨"Cases_cumulative_total", numCells cs⟩,
         ⟨"Case_Fatality_Rate", rateCells ds cs⟩] := by
  have hA : addMetric
      [⟨"Deaths_cumulative_total", numCells ds⟩, ⟨"Cases_cumulative_total", numCells cs⟩]
      "Case_Fatality_Rate" "Deaths_cumulative_total" "Cases_cumulative_total" =
      Except.ok
        [⟨"Deaths_cumulative_total", numCells ds⟩, ⟨"Cases_cumulative_total", numCells cs⟩,
         ⟨"Case_Fatality_Rate", rateCells ds cs⟩] := by
    have hg1 : getCol
        [⟨"Deaths_cumulative_total", numCells ds⟩, ⟨"Cases_cumulative_total", numCells cs⟩]
        "Deaths_cumulative_total" = some ⟨"Deaths_cumulative_total", numCells ds⟩ := by
      simp [getCol]
    have hg2 : getCol
        [⟨"Deaths_cumulative_total", numCells ds⟩, ⟨"Cases_cumulative_total", numCells cs⟩]
        "Cases_cumulative_total" = some ⟨"Cases_cumulative_total", numCells cs⟩ := by
      simp [getCol]
    rw [addMetric, hg1, hg2]
    dsimp only
    rw [exceptMap_numCells]
    dsimp only
    rw [preRate_round]
    simp [setCol]
  have hg3 : getCol
      [⟨"Deaths_cumulative_total", numCells ds⟩, ⟨"Cases_cumulative_total", numCells cs⟩,
       ⟨"Case_Fatality_Rate", rateCells ds cs⟩]
      "Cases_newly_reported_in_last_7_days" = none := by
    simp [getCol]
  rw [add_derived_metrics, hA]
  dsimp only
  rw [addMetric, hg3]

theorem add_derived_tbl3 (ds ws cs : List ℚ) :
    add_derived_metrics (tbl3 ds ws cs) =
      Except.ok (tbl3 ds ws cs ++
        [⟨"Case_Fatality_Rate", rateCells ds cs⟩,
         ⟨"Weekly_Case_Growth_%", rateCells ws cs⟩]) := by
  have hA : addMetric (tbl3 ds ws cs)
      "Case_Fatality_Rate" "Deaths_cumulative_total" "Cases_cumulative_total" =
      Except.ok (tbl3 ds ws cs ++ [⟨"Case_Fatality_Rate", rateCells ds cs⟩]) := by
    have hg1 : getCol (tbl3 ds ws cs) "Deaths_cumulative_total" =
        some ⟨"Deaths_cumulative_total", numCells ds⟩ := by
      simp [tbl3, getCol]
    have hg2 : getCol (tbl3 ds ws cs) "Cases_cumulative_total" =
        some ⟨"Cases_cumulative_total", numCells cs⟩ := by
      simp [tbl3, getCol]
    rw [addMetric, hg1, hg2]
    dsimp only
    rw [exceptMap_numCells]
    dsimp only
    rw [preRate_round]
    simp [tbl3, setCol]
  have hg3 : getCol (tbl3 ds ws cs ++ [⟨"Case_Fatality_Rate", rateCells ds cs⟩])
      "Cases_newly_reported_in_last_7_days" =
      some ⟨"Cases_newly_reported_in_last_7_days", numCells ws⟩ := by
    simp [tbl3, getCol]
  have hg4 : getCol (tbl3 ds ws cs ++ [⟨"Case_Fatality_Rate", rateCells ds cs⟩])
      "Cases_cumulative_total" = some ⟨"Cases_cumulative_total", numCells cs⟩ := by
    simp [tbl3, getCol]
  have hB : addMetric (tbl3 ds ws cs ++ [⟨"Case_Fatality_Rate", rateCells ds cs⟩])
      "Weekly_Case_Growth_%" "Cases_newly_reported_in_last_7_days" "Cases_cumulative_total" =
      Except.ok (tbl3 ds ws cs ++
        [⟨"Case_Fatality_Rate", rateCells ds cs⟩,
         ⟨"Weekly_Case_Growth_%", rateCells ws cs⟩]) := by
    rw [addMetric, hg3, hg4]
    dsimp only
    rw [exceptMap_numCells]
    dsimp only
    rw [preRate_round]
    simp [tbl3, setCol]
  rw [add_derived_metrics, hA]
  dsimp only
  exact hB

theorem getElem_zip_pair {α β : Type} (l1 : List α) (l2 : List β) (i : ℕ) :
    (l1.zip l2)[i]? = l1[i]?.bind (fun a => (l2[i]?).map (fun b => (a, b))) := by
  induction l1 generalizing l2 i with
  | nil => simp
  | cons x xs ih =>
      cases l2 with
      | nil => simp
      | cons y ys =>
          cases i with
          | zero => simp
          | succ n => simpa using ih ys n

theorem hasCol_setCol (t : Table) (n : String) (cells : List (Option Value)) (m : String) :
    hasCol (setCol t n cells) m = (hasCol t m || (n == m)) := by
  induction t with
  | nil => simp [setCol, hasCol_cons, hasCol_nil]
  | cons c t ih =>
      rw [setCol]
      by_cases hb : (c.name == n) = true
      · rw [if_pos hb, hasCol_cons, hasCol_cons]
        have hcn : c.name = n := eq_of_beq hb
        subst hcn
        cases c.name == m <;> cases hasCol t m <;> simp
      · rw [if_neg hb, hasCol_cons, hasCol_cons, ih]
        cases c.name == m <;> simp [Bool.or_assoc]

theorem addMetric_hasCol (t t2 : Table) (nn numN denN m : String)
    (h : addMetric t nn numN denN = Except.ok t2) :
    hasCol t2 m = (hasCol t m || (hasCol t numN && hasCol t denN && (nn == m))) := by
  cases hg1 : getCol t numN with
  | none =>
      simp only [addMetric, hg1, Except.ok.injEq] at h
      subst h
      simp [hasCol, hg1]
  | some cn =>
      cases hg2 : getCol t denN with
      | none =>
          simp only [addMetric, hg1, hg2, Except.ok.injEq] at h
          subst h
          simp [hasCol, hg2]
      | some cd =>
          cases hmap : exceptMap (fun p => rawMetricCell p.1 p.2) (cn.cells.zip cd.cells) with
          | error e => simp [addMetric, hg1, hg2, hmap] at h
          | ok cells =>
              simp only [addMetric, hg1, hg2, hmap, Except.ok.injEq] at h
              subst h
              rw [hasCol_setCol]
              have hn : hasCol t numN = true := by rw [hasCol, hg1]; rfl
              have hd : hasCol t denN = true := by rw [hasCol, hg2]; rfl
              rw [hn, hd]
              cases hasCol t m <;> simp

/-- C2 counterexample: on a row whose denominator is the nonzero value -1,
the engine produces 0 while the claimed formula produces the rounded ratio
-100; so the rounded ratio is not produced for every nonzero denominator. -/
theorem C2_counterexample :
    add_derived_metrics
        [⟨"Deaths_cumulative_total", numCells [1]⟩,
         ⟨"Cases_cumulative_total", numCells [-1]⟩] =
      Except.ok
        [⟨"Deaths_cumulative_total", numCells [1]⟩,
         ⟨"Cases_cumulative_total", numCells [-1]⟩,
         ⟨"Case_Fatality_Rate", [some (Value.num 0)]⟩] ∧
    round2 ((1 : ℚ) / (-1) * 100) = -100 ∧ (0 : ℚ) ≠ -100 := by
  refine ⟨?_, ?_, by norm_num⟩
  · have hr : rateCells [1] [-1] = [some (Value.num 0)] := by
      unfold rateCells
      simp only [List.zip_cons_cons, List.zip_nil_right, List.map_cons, List.map_nil]
      rw [if_neg (by norm_num)]
    rw [add_derived_two_col [1] [-1], hr]
  · have h1 : ((1 : ℚ) / (-1) * 100) = (((-100 : ℤ)) : ℚ) := by norm_num
    rw [h1, round2_intCast]
    norm_num

/-- C2 amended: per row, the derived metric equals the rounded ratio when
the denominator is strictly positive and equals 0 when the denominator is
zero or negative; the zero-denominator row yields 0, never an error. -/
theorem C2_amended_positive_denominator (ds cs : List ℚ) (i : ℕ) (d cv : ℚ)
    (hd : ds[i]? = some d) (hc : cs[i]? = some cv) :
    add_derived_metrics
        [⟨"Deaths_cumulative_total", numCells ds⟩, ⟨"Cases_cumulative_total", numCells cs⟩] =
      Except.ok
        [⟨"Deaths_cumulative_total", numCells ds⟩, ⟨"Cases_cumulative_total", numCells cs⟩,
         ⟨"Case_Fatality_Rate", rateCells ds cs⟩] ∧
    (rateCells ds cs)[i]? =
      some (some (Value.num (if 0 < cv then round2 (d / cv * 100) else 0))) := by
  refine ⟨add_derived_two_col ds cs, ?_⟩
  rw [rateCells, List.getElem?_map, getElem_zip_pair, hd, hc]
  rfl

/-- Witness for the amended C2 at the row 50 / 1000 of the spec example. -/
theorem C2_amended_witness :
    (numCells [(50 : ℚ)] = numCells [50] ∧
      ([(50 : ℚ)] : List ℚ)[0]? = some 50 ∧ ([(1000 : ℚ)] : List ℚ)[0]? = some 1000) ∧
    (add_derived_metrics
        [⟨"Deaths_cumulative_total", numCells [(50 : ℚ)]⟩,
         ⟨"Cases_cumulative_total", numCells [(1000 : ℚ)]⟩] =
      Except.ok
        [⟨"Deaths_cumulative_total", numCells [(50 : ℚ)]⟩,
         ⟨"Cases_cumulative_total", numCells [(1000 : ℚ)]⟩,
         ⟨"Case_Fatality_Rate", rateCells [(50 : ℚ)] [(1000 : ℚ)]⟩] ∧
     (rateCells [(50 : ℚ)] [(1000 : ℚ)])[0]? =
       some (some (Value.num (if 0 < (1000 : ℚ) then round2 (50 / 1000 * 100) else 0)))) :=
  ⟨⟨rfl, rfl, rfl⟩, C2_amended_positive_denominator [50] [1000] 0 50 1000 rfl rfl⟩

/-- C9: whenever the shared denominator of a row is zero or negative, both
derived metrics of that row are exactly 0: the zero-denominator fallback
applies to every non-positive denominator. -/
theorem C9_nonpositive_denominator_zero (ds ws cs : List ℚ) (i : ℕ) (d w cv : ℚ)
    (hd : ds[i]? = some d) (hw : ws[i]? = some w) (hc : cs[i]? = some cv)
    (hcv : cv ≤ 0) :
    add_derived_metrics (tbl3 ds ws cs) =
      Except.ok (tbl3 ds ws cs ++
        [⟨"Case_Fatality_Rate", rateCells ds cs⟩,
         ⟨"Weekly_Case_Growth_%", rateCells ws cs⟩]) ∧
    (rateCells ds cs)[i]? = some (some (Value.num 0)) ∧
    (rateCells ws cs)[i]? = some (some (Value.num 0)) := by
  have hneg : ¬(0 < cv) := not_lt.mpr hcv
  refine ⟨add_derived_tbl3 ds ws cs, ?_, ?_⟩
  · rw [rateCells, List.getElem?_map, getElem_zip_pair, hd, hc]
    simp [hneg]
  · rw [rateCells, List.getElem?_map, getElem_zip_pair, hw, hc]
    simp [hneg]

/-- Witness for C9 at a concrete table with a zero denominator row. -/
theorem C9_witness :
    (([(1 : ℚ)] : List ℚ)[0]? = some 1 ∧ ([(2 : ℚ)] : List ℚ)[0]? = some 2 ∧
      ([(0 : ℚ)] : List ℚ)[0]? = some 0 ∧ (0 : ℚ) ≤ 0) ∧
    (add_derived_metrics (tbl3 [(1 : ℚ)] [(2 : ℚ)] [(0 : ℚ)]) =
      Except.ok (tbl3 [(1 : ℚ)] [(2 : ℚ)] [(0 : ℚ)] ++
        [⟨"Case_Fatality_Rate", rateCells [(1 : ℚ)] [(0 : ℚ)]⟩,
         ⟨"Weekly_Case_Growth_%", rateCells [(2 : ℚ)] [(0 : ℚ)]⟩]) ∧
     (rateCells [(1 : ℚ)] [(0 : ℚ)])[0]? = some (some (Value.num 0)) ∧
     (rateCells [(2 : ℚ)] [(0 : ℚ)])[0]? = some (some (Value.num 0))) :=
  ⟨⟨rfl, rfl, rfl, le_refl 0⟩,
    C9_nonpositive_denominator_zero [1] [2] [0] 0 1 2 0 rfl rfl rfl (le_refl 0)⟩

/-- C3 counterexample: with a Text numerator column present and a zero
denominator, the engine still creates the metric column (with the fallback
value), even though the numerator column is not numeric; creation is not
conditional on the inputs being Numeric. -/
theorem C3_counterexample :
    add_derived_metrics
        [⟨"Deaths_cumulative_total", [some (Value.text "abc")]⟩,
         ⟨"Cases_cumulative_total", [some (Value.num 0)]⟩] =
      Except.ok
        [⟨"Deaths_cumulative_total", [some (Value.text "abc")]⟩,
         ⟨"Cases_cumulative_total", [some (Value.num 0)]⟩,
         ⟨"Case_Fatality_Rate", [some (Value.num 0)]⟩] ∧
    isNumericCol ⟨"Deaths_cumulative_total", [some (Value.text "abc")]⟩ = false := by
  refine ⟨?_, rfl⟩
  have hcell : rawMetricCell (some (Value.text "abc")) (some (Value.num 0)) =
      Except.ok (some (Value.num 0)) := by
    simp [rawMetricCell]
  have hmap : exceptMap (fun p => rawMetricCell p.1 p.2)
      (([some (Value.text "abc")] : List (Option Value)).zip
        ([some (Value.num 0)] : List (Option Value))) =
      Except.ok [some (Value.num 0)] := by
    simp [exceptMap, hcell]
  have hA : addMetric
      [⟨"Deaths_cumulative_total", [some (Value.text "abc")]⟩,
       ⟨"Cases_cumulative_total", [some (Value.num 0)]⟩]
      "Case_Fatality_Rate" "Deaths_cumulative_total" "Cases_cumulative_total" =
      Except.ok
        [⟨"Deaths_cumulative_total", [some (Value.text "abc")]⟩,
         ⟨"Cases_cumulative_total", [some (Value.num 0)]⟩,
         ⟨"Case_Fatality_Rate", [some (Value.num 0)]⟩] := by
    have hg1 : getCol
        [⟨"Deaths_cumulative_total", [some (Value.text "abc")]⟩,
         ⟨"Cases_cumulative_total", [some (Value.num 0)]⟩]
        "Deaths_cumulative_total" =
        some ⟨"Deaths_cumulative_total", [some (Value.text "abc")]⟩ := by
      simp [getCol]
    have hg2 : getCol
        [⟨"Deaths_cumulative_total", [some (Value.text "abc")]⟩,
         ⟨"Cases_cumulative_total", [some (Value.num 0)]⟩]
        "Cases_cumulative_total" = some ⟨"Cases_cumulative_total", [some (Value.num 0)]⟩ := by
      simp [getCol]
    rw [addMetric, hg1, hg2]
    dsimp only
    rw [hmap]
    dsimp only
    have hround : (([some (Value.num 0)] : List (Option Value)).map roundCell) =
        [some (Value.num 0)] := by
      simp [roundCell, round2_zero]
    rw [hround]
    simp [setCol]
  have hg3 : getCol
      [⟨"Deaths_cumulative_total", [some (Value.text "abc")]⟩,
       ⟨"Cases_cumulative_total", [some (Value.num 0)]⟩,
       ⟨"Case_Fatality_Rate", [some (Value.num 0)]⟩]
      "Cases_newly_reported_in_last_7_days" = none := by
    simp [getCol]
  rw [add_derived_metrics, hA]
  dsimp only
  rw [addMetric, hg3]

/-- C3 amended: when the run succeeds, the engine creates each metric
column exactly when both of its required input columns are present by
name, regardless of whether they are Numeric; an absent input makes the
metric column be omitted (silently). -/
theorem C3_amended_presence_only (t t2 : Table)
    (h1 : hasCol t "Case_Fatality_Rate" = false)
    (h2 : hasCol t "Weekly_Case_Growth_%" = false)
    (hok : add_derived_metrics t = Except.ok t2) :
    hasCol t2 "Case_Fatality_Rate" =
        (hasCol t "Deaths_cumulative_total" && hasCol t "Cases_cumulative_total") ∧
    hasCol t2 "Weekly_Case_Growth_%" =
        (hasCol t "Cases_newly_reported_in_last_7_days" &&
          hasCol t "Cases_cumulative_total") := by
  rw [add_derived_metrics] at hok
  cases hA : addMetric t "Case_Fatality_Rate" "Deaths_cumulative_total"
      "Cases_cumulative_total" with
  | error e => rw [hA] at hok; exact absurd hok (by simp)
  | ok t1 =>
      rw [hA] at hok
      dsimp only at hok
      have hCF1 : hasCol t1 "Case_Fatality_Rate" =
          (hasCol t "Deaths_cumulative_total" && hasCol t "Cases_cumulative_total") := by
        rw [addMetric_hasCol t t1 _ _ _ _ hA, h1]
        simp
      have hW1 : hasCol t1 "Weekly_Case_Growth_%" = false := by
        rw [addMetric_hasCol t t1 _ _ _ _ hA, h2]
        simp
      have hN1 : hasCol t1 "Cases_newly_reported_in_last_7_days" =
          hasCol t "Cases_newly_reported_in_last_7_days" := by
        rw [addMetric_hasCol t t1 _ _ _ _ hA]
        simp
      have hC1 : hasCol t1 "Cases_cumulative_total" = hasCol t "Cases_cumulative_total" := by
        rw [addMetric_hasCol t t1 _ _ _ _ hA]
        simp
      constructor
      · rw [addMetric_hasCol t1 t2 _ _ _ _ hok, hCF1]
        simp
      · rw [addMetric_hasCol t1 t2 _ _ _ _ hok, hW1, hN1, hC1]
        simp

/-- Witness for the amended C3 at a concrete table with all inputs. -/
theorem C3_amended_witness :
    (hasCol (tbl3 [(1 : ℚ)] [(2 : ℚ)] [(0 : ℚ)]) "Case_Fatality_Rate" = false ∧
     hasCol (tbl3 [(1 : ℚ)] [(2 : ℚ)] [(0 : ℚ)]) "Weekly_Case_Growth_%" = false) ∧
    (hasCol (tbl3 [(1 : ℚ)] [(2 : ℚ)] [(0 : ℚ)] ++
        [⟨"Case_Fatality_Rate", rateCells [(1 : ℚ)] [(0 : ℚ)]⟩,
         ⟨"Weekly_Case_Growth_%", rateCells [(2 : ℚ)] [(0 : ℚ)]⟩]) "Case_Fatality_Rate" =
       (hasCol (tbl3 [(1 : ℚ)] [(2 : ℚ)] [(0 : ℚ)]) "Deaths_cumulative_total" &&
        hasCol (tbl3 [(1 : ℚ)] [(2 : ℚ)] [(0 : ℚ)]) "Cases_cumulative_total") ∧
     hasCol (tbl3 [(1 : ℚ)] [(2 : ℚ)] [(0 : ℚ)] ++
        [⟨"Case_Fatality_Rate", rateCells [(1 : ℚ)] [(0 : ℚ)]⟩,
         ⟨"Weekly_Case_Growth_%", rateCells [(2 : ℚ)] [(0 : ℚ)]⟩]) "Weekly_Case_Growth_%" =
       (hasCol (tbl3 [(1 : ℚ)] [(2 : ℚ)] [(0 : ℚ)]) "Cases_newly_reported_in_last_7_days" &&
        hasCol (tbl3 [(1 : ℚ)] [(2 : ℚ)] [(0 : ℚ)]) "Cases_cumulative_total")) :=
  ⟨⟨by simp [tbl3, hasCol_cons, hasCol_nil], by simp [tbl3, hasCol_cons, hasCol_nil]⟩,
    C3_amended_presence_only (tbl3 [1] [2] [0]) _
      (by simp [tbl3, hasCol_cons, hasCol_nil])
      (by simp [tbl3, hasCol_cons, hasCol_nil])
      (add_derived_tbl3 [1] [2] [0])⟩

theorem filterMap_getCol_names (names : List String) (t : Table) :
    (names.filterMap (fun n => getCol t n)).map (fun d => d.name) =
      names.filter (fun n => hasCol t n) := by
  induction names with
  | nil => rfl
  | cons n ns ih =>
      cases hg : getCol t n with
      | none =>
          have hh : hasCol t n = false := by rw [hasCol, hg]; rfl
          simp [List.filterMap_cons, hg, List.filter_cons, hh, ih]
      | some d =>
          have hh : hasCol t n = true := by rw [hasCol, hg]; rfl
          have hname : d.name = n := (getCol_eq_some t n d hg).1
          simp [List.filterMap_cons, hg, List.filter_cons, hh, ih, hname]

/-- C8: with the restrict decision true, the Column Projector keeps exactly
the allow-list columns that exist in the input, in allow-list order, each
taken from the input table; with the decision false the table is returned
unchanged. -/
theorem C8_projector_allow_list (t : Table) (c : Col)
    (hc : c ∈ confirm_and_keep_columns true t) :
    (confirm_and_keep_columns true t).map (fun d => d.name) =
      IMPORTANT_COLUMNS.filter (fun n => hasCol t n) ∧
    c ∈ t ∧
    confirm_and_keep_columns false t = t := by
  refine ⟨?_, ?_, rfl⟩
  · show (IMPORTANT_COLUMNS.filterMap (fun n => getCol t n)).map (fun d => d.name) = _
    exact filterMap_getCol_names IMPORTANT_COLUMNS t
  · have hc2 : c ∈ IMPORTANT_COLUMNS.filterMap (fun n => getCol t n) := hc
    obtain ⟨n, _, hg⟩ := List.mem_filterMap.mp hc2
    exact (getCol_eq_some t n c hg).2

/-- Witness for C8 at a concrete two-column table. -/
theorem C8_witness :
    (Col.mk "Name" [some (Value.text "X")]) ∈
      confirm_and_keep_columns true
        [⟨"WHO_Region", [some (Value.text "E")]⟩, ⟨"Name", [some (Value.text "X")]⟩] ∧
    ((confirm_and_keep_columns true
        [⟨"WHO_Region", [some (Value.text "E")]⟩,
         ⟨"Name", [some (Value.text "X")]⟩]).map (fun d => d.name) =
      IMPORTANT_COLUMNS.filter (fun n =>
        hasCol [⟨"WHO_Region", [some (Value.text "E")]⟩,
          ⟨"Name", [some (Value.text "X")]⟩] n) ∧
     (Col.mk "Name" [some (Value.text "X")]) ∈
       ([⟨"WHO_Region", [some (Value.text "E")]⟩,
         ⟨"Name", [some (Value.text "X")]⟩] : Table) ∧
     confirm_and_keep_columns false
        [⟨"WHO_Region", [some (Value.text "E")]⟩, ⟨"Name", [some (Value.text "X")]⟩] =
       [⟨"WHO_Region", [some (Value.text "E")]⟩, ⟨"Name", [some (Value.text "X")]⟩]) :=
  ⟨by decide,
    C8_projector_allow_list
      [⟨"WHO_Region", [some (Value.text "E")]⟩, ⟨"Name", [some (Value.text "X")]⟩]
      ⟨"Name", [some (Value.text "X")]⟩ (by decide)⟩

/-- Witness for C6 at concrete tables with and without missing cells. -/
theorem C6_witness :
    count_missing [(⟨"B", [some (Value.text "y")]⟩ : Col)] = 0 ∧
    (count_missing (handle_missing_values [(⟨"A", [none, some (Value.text "x")]⟩ : Col)]) = 0 ∧
     handle_missing_values [(⟨"A", [none, some (Value.text "x")]⟩ : Col)] =
       [(⟨"A", [none, some (Value.text "x")]⟩ : Col)].map (fun c => ⟨c.name,
         c.cells.map (fun x => some (x.getD
           (if isNumericCol c then Value.num 0 else Value.text "Unknown")))⟩) ∧
     handle_missing_values [(⟨"B", [some (Value.text "y")]⟩ : Col)] =
       [(⟨"B", [some (Value.text "y")]⟩ : Col)]) :=
  ⟨by decide,
    C6_resolver_fill_policy [⟨"A", [none, some (Value.text "x")]⟩]
      [⟨"B", [some (Value.text "y")]⟩] (by decide)⟩

/-! ## Helper lemmas for the Summary Reporter claim -/

theorem allFilled_iff (t : Table) :
    allFilled t = true ↔ ∀ c ∈ t, ∀ x ∈ c.cells, x.isSome = true := by
  simp [allFilled, List.all_eq_true]

theorem allFilled_handle (t : Table) : allFilled (handle_missing_values t) = true := by
  rw [handle_missing_values]
  split
  · next h =>
      rw [allFilled_iff]
      intro c hc x hx
      exact (count_missing_col_eq_zero c).mp ((count_missing_eq_zero t).mp h c hc) x hx
  · rw [allFilled_iff]
    intro c hc x hx
    obtain ⟨d, _, rfl⟩ := List.mem_map.mp hc
    simp [fillCol] at hx
    obtain ⟨y, hy, rfl⟩ := hx
    rfl

theorem rawMetricCell_ok_none (x y : Option Value)
    (h : rawMetricCell x y = Except.ok none) : x = none := by
  cases y with
  | none => simp [rawMetricCell] at h
  | some v =>
      cases v with
      | text s => simp [rawMetricCell] at h
      | num dv =>
          by_cases hd : 0 < dv
          · cases x with
            | none => rfl
            | some w =>
                cases w with
                | num n => simp [rawMetricCell, hd] at h
                | text s2 => simp [rawMetricCell, hd] at h
          · simp [rawMetricCell, hd] at h

theorem exceptMap_ok_mem {α β : Type} (f : α → Except String β) (l : List α)
    (out : List β) (h : exceptMap f l = Except.ok out) :
    ∀ y ∈ out, ∃ x ∈ l, f x = Except.ok y := by
  induction l generalizing out with
  | nil =>
      simp [exceptMap] at h
      subst h
      simp
  | cons x xs ih =>
      cases hx : f x with
      | error e => simp [exceptMap, hx] at h
      | ok y =>
          cases hxs : exceptMap f xs with
          | error e => simp [exceptMap, hx, hxs] at h
          | ok ys =>
              simp only [exceptMap, hx, hxs, Except.ok.injEq] at h
              subst h
              intro z hz
              rcases List.mem_cons.mp hz with rfl | hmem
              · exact ⟨x, List.mem_cons_self x xs, hx⟩
              · obtain ⟨x2, hx2, hfx2⟩ := ih ys hxs z hmem
                exact ⟨x2, List.mem_cons_of_mem _ hx2, hfx2⟩

theorem roundCell_isSome (x : Option Value) : (roundCell x).isSome = x.isSome := by
  cases x with
  | none => rfl
  | some v => cases v <;> rfl

theorem mem_setCol (t : Table) (n : String) (cells : List (Option Value)) (d : Col)
    (hd : d ∈ setCol t n cells) : d ∈ t ∨ d.cells = cells := by
  induction t with
  | nil =>
      simp [setCol] at hd
      subst hd
      right
      rfl
  | cons c t ih =>
      rw [setCol] at hd
      by_cases hb : (c.name == n) = true
      · rw [if_pos hb] at hd
        rcases List.mem_cons.mp hd with rfl | hmem
        · right; rfl
        · left; exact List.mem_cons_of_mem _ hmem
      · rw [if_neg hb] at hd
        rcases List.mem_cons.mp hd with rfl | hmem
        · left; exact List.mem_cons_self _ _
        · rcases ih hmem with hmem2 | hcells
          · left; exact List.mem_cons_of_mem _ hmem2
          · right; exact hcells

theorem addMetric_allFilled (t t2 : Table) (nn numN denN : String)
    (ht : allFilled t = true) (h : addMetric t nn numN denN = Except.ok t2) :
    allFilled t2 = true := by
  cases hg1 : getCol t numN with
  | none =>
      simp only [addMetric, hg1, Except.ok.injEq] at h
      subst h
      exact ht
  | some cn =>
      cases hg2 : getCol t denN with
      | none =>
          simp only [addMetric, hg1, hg2, Except.ok.injEq] at h
          subst h
          exact ht
      | some cd =>
          cases hmap : exceptMap (fun p => rawMetricCell p.1 p.2)
              (cn.cells.zip cd.cells) with
          | error e => simp [addMetric, hg1, hg2, hmap] at h
          | ok cells =>
              simp only [addMetric, hg1, hg2, hmap, Except.ok.injEq] at h
              subst h
              rw [allFilled_iff]
              intro d hd x hx
              rcases mem_setCol t nn _ d hd with hmem | hcells
              · exact (allFilled_iff t).mp ht d hmem x hx
              · rw [hcells] at hx
                obtain ⟨y, hy, rfl⟩ := List.mem_map.mp hx
                rw [roundCell_isSome]
                cases hysome : y.isSome
                · have hynone : y = none := by cases y <;> simp_all
                  subst hynone
                  obtain ⟨p, hp, hfp⟩ := exceptMap_ok_mem _ _ _ hmap none hy
                  have hp1 : p.1 = none := rawMetricCell_ok_none p.1 p.2 hfp
                  have hcn : cn ∈ t := (getCol_eq_some t numN cn hg1).2
                  have hp1mem : p.1 ∈ cn.cells := by
                    have := List.of_mem_zip (a := p.1) (b := p.2) (by simpa using hp)
                    exact this.1
                  have hs := (allFilled_iff t).mp ht cn hcn p.1 hp1mem
                  rw [hp1] at hs
                  simp at hs
                · rfl

theorem allFilled_add_derived (t t2 : Table) (ht : allFilled t = true)
    (h : add_derived_metrics t = Except.ok t2) : allFilled t2 = true := by
  rw [add_derived_metrics] at h
  cases hA : addMetric t "Case_Fatality_Rate" "Deaths_cumulative_total"
      "Cases_cumulative_total" with
  | error e => rw [hA] at h; simp at h
  | ok t1 =>
      rw [hA] at h
      dsimp only at h
      exact addMetric_allFilled t1 t2 _ _ _ (addMetric_allFilled t t1 _ _ _ ht hA) h

theorem allFilled_project (b : Bool) (t : Table) (ht : allFilled t = true) :
    allFilled (confirm_and_keep_columns b t) = true := by
  cases b with
  | false => exact ht
  | true =>
      rw [allFilled_iff]
      intro c hc x hx
      have hc2 : c ∈ IMPORTANT_COLUMNS.filterMap (fun n => getCol t n) := hc
      obtain ⟨n, _, hg⟩ := List.mem_filterMap.mp hc2
      exact (allFilled_iff t).mp ht c (getCol_eq_some t n c hg).2 x hx

/-- C1 counterexample: on an input whose only column has one Missing cell
out of two, the pipeline output drives the reporter to a 0 percent missing
figure, while the pre-imputation table has 50 percent missing cells; the
reporter does not receive or use the pre-imputation table. -/
theorem C1_counterexample :
    process_dataset false [⟨"A", [none, some (Value.text "x")]⟩] =
      Except.ok [⟨"A", [some (Value.text "Unknown"), some (Value.text "x")]⟩] ∧
    summaryMissingPercents [⟨"A", [some (Value.text "Unknown"), some (Value.text "x")]⟩] =
      [("A", 0)] ∧
    missing_percent [⟨"A", [none, some (Value.text "x")]⟩]
      ⟨"A", [none, some (Value.text "x")]⟩ = 50 := by
  refine ⟨by decide, ?_, ?_⟩
  · have hcnt : count_missing_col
        (⟨"A", [some (Value.text "Unknown"), some (Value.text "x")]⟩ : Col) = 0 := by decide
    have hrows : numRows
        [(⟨"A", [some (Value.text "Unknown"), some (Value.text "x")]⟩ : Col)] = 2 := by decide
    simp only [summaryMissingPercents, List.map_cons, List.map_nil, missing_percent,
      hcnt, hrows]
    norm_num
  · have hcnt : count_missing_col (⟨"A", [none, some (Value.text "x")]⟩ : Col) = 1 := by
      decide
    have hrows : numRows [(⟨"A", [none, some (Value.text "x")]⟩ : Col)] = 2 := by decide
    rw [missing_percent, hcnt, hrows]
    norm_num

/-- C1 amended: the reporter computes each column's missing percentage
from the post-pipeline table it receives, not from the pre-imputation
table; since the resolver leaves no Missing cell, every reported
missing-percent figure is 0. -/
theorem C1_amended_missing_percent_post (restrict : Bool) (t t2 : Table)
    (h : process_dataset restrict t = Except.ok t2) :
    summaryMissingPercents t2 = t2.map (fun c => (c.name, (0 : ℚ))) := by
  rw [process_dataset] at h
  cases hA : add_derived_metrics
      (handle_missing_values (simplify_numeric_columns (clean_column_names t))) with
  | error e => rw [hA] at h; simp at h
  | ok t4 =>
      rw [hA] at h
      dsimp only at h
      simp only [Except.ok.injEq] at h
      have h4 : allFilled t4 = true :=
        allFilled_add_derived _ _ (allFilled_handle _) hA
      have h5 : allFilled t2 = true := by
        rw [← h]
        exact allFilled_project restrict t4 h4
      rw [summaryMissingPercents]
      apply List.map_congr_left
      intro c hc
      have hcnt : count_missing_col c = 0 :=
        (count_missing_col_eq_zero c).mpr ((allFilled_iff t2).mp h5 c hc)
      rw [missing_percent, hcnt]
      norm_num

/-- Witness for the amended C1 at a concrete clean input table. -/
theorem C1_amended_witness :
    process_dataset false [(⟨"A", [some (Value.text "x")]⟩ : Col)] =
      Except.ok [(⟨"A", [some (Value.text "x")]⟩ : Col)] ∧
    summaryMissingPercents [(⟨"A", [some (Value.text "x")]⟩ : Col)] =
      [(⟨"A", [some (Value.text "x")]⟩ : Col)].map (fun c => (c.name, (0 : ℚ))) :=
  ⟨by decide,
    C1_amended_missing_percent_post false [⟨"A", [some (Value.text "x")]⟩]
      [⟨"A", [some (Value.text "x")]⟩] (by decide)⟩

/-- Witness for C5 at a concrete raw name with spaces. -/
theorem C5_witness :
    clean_column_names [(⟨" a b ", [none]⟩ : Col)] =
      [(⟨" a b ", [none]⟩ : Col)].map (fun c => ⟨specCanonical c.name, c.cells⟩) :=
  C5_normalizer_canonical [⟨" a b ", [none]⟩]

end Covid
